import Mathlib

/-!
Verification of the fast-pattern selection subsystem of the Suricata
detection engine (detect-fast-pattern.c, here found inside
src/src/util-affinity.c after the second document separator).

The shallow embedding below translates the C code into Lean:

* `DetectContentData` models the `DetectContentData` struct: the flag
  bitfield `cd->flags` is rendered as named booleans, one per
  `DETECT_CONTENT_*` bit the fast-pattern code reads or writes, and the
  `fp_chop_offset` / `fp_chop_len` / `content_len` fields as `Nat`.
* `pcreExecFp` models `pcre_exec` applied to the literal regex
  `DETECT_FAST_PATTERN_REGEX = "^(\s*only\s*)|\s*([0-9]+)\s*,\s*([0-9]+)\s*$"`:
  the first alternative is anchored at the start only, the second at the
  end only, and the subject is scanned left to right, so the model checks
  the `only` alternative at offset 0 and then the numeric alternative at
  every start offset.
* `DetectFastPatternSetup` models the C function of the same name,
  returning the C `int` result paired with the (possibly updated)
  signature, since the C mutates `cd` through a pointer.
* Code that this repository's sources reference but that is not present
  under src/ (the rule parser `SigInit`, `SigMatchGetLastSMFromLists`,
  the relative-modifier keyword setups, and the MPM build/search stage)
  is modelled from the specification; each such definition carries a doc
  comment starting with `Modelled from the spec:`.

Machine integers: the C `int` values produced by `atoi` are modelled as
`Nat`; the captured substrings are digit-only by the regex, and all
bounds checked by the code are at 65535, far below `INT_MAX`, so overflow
is idealized away (C `atoi` overflow is undefined behaviour, not a
defined wraparound).
-/

/-- Whitespace test for the PCRE `\s` class: space, tab, newline,
vertical tab, form feed, carriage return. -/
def isWsChar (c : Char) : Bool :=
  c.toNat == 32 || c.toNat == 9 || c.toNat == 10 ||
  c.toNat == 11 || c.toNat == 12 || c.toNat == 13

/-- Digit test for the PCRE `[0-9]` class. -/
def isDigitChar (c : Char) : Bool :=
  Nat.ble 48 c.toNat && Nat.ble c.toNat 57

/-- Decimal value of a digit string, modelling C `atoi` on the regex
captures (which are digit-only). -/
def atoiL (ds : List Char) : Nat :=
  ds.foldl (fun a c => a * 10 + (c.toNat - 48)) 0

/-- Result of running `DETECT_FAST_PATTERN_REGEX` over the argument:
`ret == 2` (the `only` alternative), `ret == 4` (the numeric
alternative, with the two captures), or no match. -/
inductive PcreRet where
  | only : PcreRet
  | chop (o l : Nat) : PcreRet
  | nomatch : PcreRet
deriving DecidableEq

/-- Matching of the first regex alternative `^(\s*only\s*)` at subject
start: leading whitespace, then the literal `only`; the trailing `\s*`
and the rest of the subject are unconstrained because this alternative
has no end anchor. -/
def matchOnlyAlt (s : List Char) : Bool :=
  List.isPrefixOf ['o', 'n', 'l', 'y'] (s.dropWhile isWsChar)

/-- Matching of the second regex alternative
`\s*([0-9]+)\s*,\s*([0-9]+)\s*$` against one suffix of the subject,
returning the two digit captures.  The character classes of adjacent
pieces are disjoint, so greedy matching without backtracking is
complete. -/
def chopAltSuffix (s : List Char) : Option (List Char × List Char) :=
  let s1 := s.dropWhile isWsChar
  let d1 := s1.takeWhile isDigitChar
  let r1 := s1.dropWhile isDigitChar
  if d1 = [] then none
  else
    match r1.dropWhile isWsChar with
    | ',' :: r3 =>
      let r4 := r3.dropWhile isWsChar
      let d2 := r4.takeWhile isDigitChar
      let r5 := r4.dropWhile isDigitChar
      if d2 = [] then none
      else if r5.dropWhile isWsChar = [] then some (d1, d2)
      else none
    | _ => none

/-- Scan of the subject for the second alternative, trying successive
start offsets as `pcre_exec` does (the alternative has no start
anchor). -/
def chopAltSearch : List Char → PcreRet
  | [] =>
    match chopAltSuffix [] with
    | some (d1, d2) => PcreRet.chop (atoiL d1) (atoiL d2)
    | none => PcreRet.nomatch
  | c :: t =>
    match chopAltSuffix (c :: t) with
    | some (d1, d2) => PcreRet.chop (atoiL d1) (atoiL d2)
    | none => chopAltSearch t

/-- Model of `pcre_exec(parse_regex, ..., arg, ...)` for
`DETECT_FAST_PATTERN_REGEX`: at offset 0 the `only` alternative is tried
first; the numeric alternative is then tried at every offset. -/
def pcreExecFp (s : List Char) : PcreRet :=
  if matchOnlyAlt s then PcreRet.only else chopAltSearch s

/-- Model of the `DetectContentData` struct fields read or written by
detect-fast-pattern.c.  The C packs the booleans into `cd->flags` as
`DETECT_CONTENT_NEGATED`, `DETECT_CONTENT_DISTANCE`,
`DETECT_CONTENT_WITHIN`, `DETECT_CONTENT_OFFSET`,
`DETECT_CONTENT_DEPTH`, `DETECT_CONTENT_FAST_PATTERN`,
`DETECT_CONTENT_FAST_PATTERN_ONLY`, `DETECT_CONTENT_FAST_PATTERN_CHOP`. -/
structure DetectContentData where
  content : List Nat
  content_len : Nat
  negated : Bool
  distance : Bool
  within : Bool
  offsetMod : Bool
  depth : Bool
  fast_pattern : Bool
  fast_pattern_only : Bool
  fast_pattern_chop : Bool
  fp_chop_offset : Nat
  fp_chop_len : Nat
deriving DecidableEq

/-- Content data as produced by the (external) content keyword parser
for a pattern with the given bytes and negation: all modifier and
fast-pattern flags clear, chop fields zero. -/
def emptyCd (bytes : List Nat) (neg : Bool) : DetectContentData :=
  { content := bytes
    content_len := bytes.length
    negated := neg
    distance := false
    within := false
    offsetMod := false
    depth := false
    fast_pattern := false
    fast_pattern_only := false
    fast_pattern_chop := false
    fp_chop_offset := 0
    fp_chop_len := 0 }

/-- Keyword node of a signature match list: either a content-bearing
keyword (content / uricontent / http_* content keyword, carrying a
`DetectContentData`) or any other keyword type.  `idx` is the global
insertion index `sm->idx` assigned at parse time. -/
inductive SigMatch where
  | contentSM (idx : Nat) (cd : DetectContentData) : SigMatch
  | otherSM (idx : Nat) (ty : Nat) : SigMatch
deriving DecidableEq

/-- Signature with the seven sigmatch lists detect-fast-pattern.c
inspects: `DETECT_SM_LIST_PMATCH`, `UMATCH`, `HCBDMATCH`, `HHDMATCH`,
`HRHDMATCH`, `HMDMATCH`, `HCDMATCH`. -/
structure Sig where
  pmatch : List SigMatch
  umatch : List SigMatch
  hcbd : List SigMatch
  hhd : List SigMatch
  hrhd : List SigMatch
  hmd : List SigMatch
  hcd : List SigMatch
deriving DecidableEq

/-- Signature with all seven lists empty. -/
def emptySig : Sig :=
  { pmatch := [], umatch := [], hcbd := [], hhd := [], hrhd := [],
    hmd := [], hcd := [] }

/-- Last content-bearing keyword of one list (the list is walked from
its head; the last matching node wins, as walking back from the C list
tail does). -/
def lastContentSM (l : List SigMatch) : Option (Nat × DetectContentData) :=
  l.foldl
    (fun acc sm =>
      match sm with
      | SigMatch.contentSM i cd => some (i, cd)
      | SigMatch.otherSM _ _ => acc)
    none

/-- Later of two candidate keywords by insertion index, keeping the
first on a tie. -/
def pickLater :
    Option (Nat × DetectContentData) → Option (Nat × DetectContentData) →
    Option (Nat × DetectContentData)
  | none, b => b
  | some a, none => some a
  | some a, some b => if a.1 < b.1 then some b else some a

/-- Modelled from the spec: `SigMatchGetLastSMFromLists` (declared in
detect-parse.c, which is absent from src/).  Per the spec the explicit
`fast_pattern` directive binds to "the most recently declared
content-bearing keyword": among the last content-bearing node of each
of the seven lists, the one with the highest insertion index is
returned. -/
def sigMatchGetLastSMFromLists (s : Sig) : Option (Nat × DetectContentData) :=
  pickLater (lastContentSM s.pmatch)
    (pickLater (lastContentSM s.umatch)
      (pickLater (lastContentSM s.hcbd)
        (pickLater (lastContentSM s.hhd)
          (pickLater (lastContentSM s.hrhd)
            (pickLater (lastContentSM s.hmd)
              (lastContentSM s.hcd))))))

/-- Replacement of the content node with insertion index `i` by new
content data, in one list; models the C write through `cd = pm->ctx`. -/
def stampList (l : List SigMatch) (i : Nat) (cd' : DetectContentData) :
    List SigMatch :=
  l.map
    (fun sm =>
      match sm with
      | SigMatch.contentSM j _ =>
        if j = i then SigMatch.contentSM j cd' else sm
      | SigMatch.otherSM _ _ => sm)

/-- Replacement of the content node with insertion index `i` in every
list of the signature. -/
def stampSig (s : Sig) (i : Nat) (cd' : DetectContentData) : Sig :=
  { pmatch := stampList s.pmatch i cd'
    umatch := stampList s.umatch i cd'
    hcbd := stampList s.hcbd i cd'
    hhd := stampList s.hhd i cd'
    hrhd := stampList s.hrhd i cd'
    hmd := stampList s.hmd i cd'
    hcd := stampList s.hcd i cd' }

/-- Model of `DetectFastPatternSetup` (detect-fast-pattern.c).  Returns
the C return value (`0` or `-1`) paired with the signature, which is
returned unchanged on every error path (the C mutates `cd` only after
all validation passes).  `arg = none` models a NULL argument pointer.
The second `65535 < o` test mirrors the source, which re-checks
`offset` where its error message speaks of the length. -/
def DetectFastPatternSetup (s : Sig) (arg : Option (List Char)) : Int × Sig :=
  if s.pmatch = [] ∧ s.umatch = [] ∧ s.hcbd = [] ∧ s.hhd = [] ∧
      s.hrhd = [] ∧ s.hmd = [] ∧ s.hcd = [] then
    (-1, s)
  else
    match sigMatchGetLastSMFromLists s with
    | none => (-1, s)
    | some (i, cd) =>
      if cd.negated &&
          (cd.distance || cd.within || cd.offsetMod || cd.depth) then
        (-1, s)
      else
        match arg with
        | none => (0, stampSig s i { cd with fast_pattern := true })
        | some a =>
          if a = [] then
            (0, stampSig s i { cd with fast_pattern := true })
          else
            match pcreExecFp a with
            | PcreRet.only =>
              if cd.negated || cd.distance || cd.within ||
                  cd.offsetMod || cd.depth then
                (-1, s)
              else
                (0, stampSig s i
                  { cd with fast_pattern_only := true, fast_pattern := true })
            | PcreRet.chop o l =>
              if 65535 < o then (-1, s)
              else if 65535 < o then (-1, s)
              else if 65535 < o + l then (-1, s)
              else if cd.content_len < o + l then (-1, s)
              else
                (0, stampSig s i
                  { cd with fp_chop_offset := o
                            fp_chop_len := l
                            fast_pattern_chop := true
                            fast_pattern := true })
            | PcreRet.nomatch => (-1, s)

/-- Signature whose payload match list holds a single content keyword. -/
def mkSig1 (cd : DetectContentData) : Sig :=
  { emptySig with pmatch := [SigMatch.contentSM 0 cd] }

/-- Relative-modifier kind: the four content modifiers `distance`,
`within`, `offset`, `depth`. -/
inductive RelModKind where
  | distance : RelModKind
  | within : RelModKind
  | offsetMod : RelModKind
  | depth : RelModKind
deriving DecidableEq

/-- Content data with the flag of one relative modifier set. -/
def relModFlagSet (cd : DetectContentData) : RelModKind → DetectContentData
  | RelModKind.distance => { cd with distance := true }
  | RelModKind.within => { cd with within := true }
  | RelModKind.offsetMod => { cd with offsetMod := true }
  | RelModKind.depth => { cd with depth := true }

/-- Modelled from the spec: the setup of a relative-modifier keyword
(detect-content.c / detect-distance.c and friends, absent from src/).
The modifier binds to the most recent content keyword of the payload
list; per spec section 4.2 a modifier is rejected on a keyword flagged
`fast_pattern_only` (rule 1b: `only` combined with
distance/within/offset/depth fails the signature) and on a negated
keyword targeted by any `fast_pattern` form (rule 3: negation plus
positional modifiers is invalid for pre-filtering); the corresponding
unit tests are DetectFastPatternTest19-26, 33-36 and 50-53. -/
def relModSetup (s : Sig) (k : RelModKind) : Option Sig :=
  match lastContentSM s.pmatch with
  | none => none
  | some (i, cd) =>
    if cd.fast_pattern_only then none
    else if cd.negated && cd.fast_pattern then none
    else some (stampSig s i (relModFlagSet cd k))

/-- Rule option relevant to the fast-pattern subsystem: a content
keyword (bytes plus negation), a `fast_pattern` directive (with its raw
argument text, `none` for the bare form), or a relative modifier. -/
inductive RuleOpt where
  | contentOpt (bytes : List Nat) (neg : Bool) : RuleOpt
  | fastPatternOpt (arg : Option (List Char)) : RuleOpt
  | relModOpt (k : RelModKind) : RuleOpt
deriving DecidableEq

/-- Modelled from the spec: the rule loader (`SigInit`, external to this
subsystem per spec section 6) as far as the fast-pattern subsystem sees
it.  Options are processed in declaration order; a content keyword
appends a fresh node with the next insertion index to the payload match
list; a `fast_pattern` directive runs `DetectFastPatternSetup` and the
signature fails to load (result `none`) when it returns -1; a relative
modifier runs the modelled modifier setup. -/
def sigInitAux : List RuleOpt → Sig → Nat → Option Sig
  | [], s, _ => some s
  | RuleOpt.contentOpt b neg :: rest, s, n =>
    sigInitAux rest
      { s with pmatch := s.pmatch ++ [SigMatch.contentSM n (emptyCd b neg)] }
      (n + 1)
  | RuleOpt.fastPatternOpt a :: rest, s, n =>
    match DetectFastPatternSetup s a with
    | (0, s') => sigInitAux rest s' n
    | (_, _) => none
  | RuleOpt.relModOpt k :: rest, s, n =>
    match relModSetup s k with
    | some s' => sigInitAux rest s' n
    | none => none

/-- Modelled from the spec: signature load of a rule's option list,
starting from an empty signature. -/
def sigInit (opts : List RuleOpt) : Option Sig :=
  sigInitAux opts emptySig 0

/-- Search needle selected for a content keyword: the chop sub-range
`[offset, offset+length)` when `FAST_PATTERN_CHOP` is set, the full
bytes otherwise (spec section 4.4). -/
def fpNeedle (cd : DetectContentData) : List Nat :=
  if cd.fast_pattern_chop then
    (cd.content.drop cd.fp_chop_offset).take cd.fp_chop_len
  else cd.content

/-- Occurrence of a byte string in a buffer: the scan the MPM matcher
performs, checking a match at every start position. -/
def occursIn (needle : List Nat) : List Nat → Bool
  | [] => needle.isEmpty
  | b :: t => List.isPrefixOf needle (b :: t) || occursIn needle t

/-- Modelled from the spec: the MPM Build stage (detect-engine-mpm.c,
absent from src/) restricted to one buffer context, spec section 4.4:
each signature's selected pattern byte range is inserted as a needle
tagged with the owning signature id. -/
def mpmBuild (sigs : List (Nat × DetectContentData)) : List (Nat × List Nat) :=
  sigs.map (fun p => (p.1, fpNeedle p.2))

/-- Modelled from the spec: the MPM Search stage, spec section 4.5: the
compiled matcher reports the ids of the signatures whose needle occurs
in the buffer. -/
def mpmSearch (m : List (Nat × List Nat)) (buf : List Nat) : List Nat :=
  (m.filter (fun p => occursIn p.2 buf)).map (fun p => p.1)

/-- Model of `SupportFastPatternForSigMatchList`: the C walks the global
`sm_fp_support_smlist_list` and returns when the list id is already
present, otherwise prepends a new node. -/
def SupportFastPatternForSigMatchList (lst : List Nat) (list_id : Nat) :
    List Nat :=
  if list_id ∈ lst then lst else list_id :: lst

/-- Model of `SupportFastPatternForSigMatchType`: same shape over the
global `sm_fp_support_smtype_list` of sigmatch types. -/
def SupportFastPatternForSigMatchType (lst : List Nat) (sm_type : Nat) :
    List Nat :=
  if sm_type ∈ lst then lst else sm_type :: lst

/-- State of the two global fast-pattern support registries. -/
structure FpSupport where
  smtype_list : List Nat
  smlist_list : List Nat
deriving DecidableEq

/-- Sigmatch type ids and list ids used by
`SupportFastPatternForSigMatchTypes`.  The numeric values come from
enums in detect.h (absent from src/); only their distinctness within
each enum matters to the registration code. -/
def DETECT_CONTENT : Nat := 0
def DETECT_URICONTENT : Nat := 1
def DETECT_AL_HTTP_CLIENT_BODY : Nat := 2
def DETECT_AL_HTTP_HEADER : Nat := 3
def DETECT_AL_HTTP_RAW_HEADER : Nat := 4
def DETECT_AL_HTTP_METHOD : Nat := 5
def DETECT_AL_HTTP_COOKIE : Nat := 6
def DETECT_SM_LIST_PMATCH : Nat := 0
def DETECT_SM_LIST_UMATCH : Nat := 1
def DETECT_SM_LIST_HCBDMATCH : Nat := 2
def DETECT_SM_LIST_HHDMATCH : Nat := 3
def DETECT_SM_LIST_HRHDMATCH : Nat := 4
def DETECT_SM_LIST_HMDMATCH : Nat := 5
def DETECT_SM_LIST_HCDMATCH : Nat := 6

/-- Model of `SupportFastPatternForSigMatchTypes`: the fixed sequence of
fourteen registration calls, in source order. -/
def SupportFastPatternForSigMatchTypes (st : FpSupport) : FpSupport :=
  let st := { st with
    smtype_list := SupportFastPatternForSigMatchType st.smtype_list DETECT_CONTENT }
  let st := { st with
    smlist_list := SupportFastPatternForSigMatchList st.smlist_list DETECT_SM_LIST_PMATCH }
  let st := { st with
    smtype_list := SupportFastPatternForSigMatchType st.smtype_list DETECT_URICONTENT }
  let st := { st with
    smlist_list := SupportFastPatternForSigMatchList st.smlist_list DETECT_SM_LIST_UMATCH }
  let st := { st with
    smtype_list := SupportFastPatternForSigMatchType st.smtype_list DETECT_AL_HTTP_CLIENT_BODY }
  let st := { st with
    smlist_list := SupportFastPatternForSigMatchList st.smlist_list DETECT_SM_LIST_HCBDMATCH }
  let st := { st with
    smtype_list := SupportFastPatternForSigMatchType st.smtype_list DETECT_AL_HTTP_HEADER }
  let st := { st with
    smlist_list := SupportFastPatternForSigMatchList st.smlist_list DETECT_SM_LIST_HHDMATCH }
  let st := { st with
    smtype_list := SupportFastPatternForSigMatchType st.smtype_list DETECT_AL_HTTP_RAW_HEADER }
  let st := { st with
    smlist_list := SupportFastPatternForSigMatchList st.smlist_list DETECT_SM_LIST_HRHDMATCH }
  let st := { st with
    smtype_list := SupportFastPatternForSigMatchType st.smtype_list DETECT_AL_HTTP_METHOD }
  let st := { st with
    smlist_list := SupportFastPatternForSigMatchList st.smlist_list DETECT_SM_LIST_HMDMATCH }
  let st := { st with
    smtype_list := SupportFastPatternForSigMatchType st.smtype_list DETECT_AL_HTTP_COOKIE }
  let st := { st with
    smlist_list := SupportFastPatternForSigMatchList st.smlist_list DETECT_SM_LIST_HCDMATCH }
  st

/-- Number of content keywords of a list that carry `FAST_PATTERN`. -/
def fpFlaggedCount (l : List SigMatch) : Nat :=
  l.countP
    (fun sm =>
      match sm with
      | SigMatch.contentSM _ cd => cd.fast_pattern
      | SigMatch.otherSM _ _ => false)

/-- Content-bearing test on a keyword node. -/
def isContentSM : SigMatch → Bool
  | SigMatch.contentSM _ _ => true
  | SigMatch.otherSM _ _ => false

theorem lastContentSM_foldl_const (m : List SigMatch)
    (hm : ∀ sm ∈ m, isContentSM sm = false)
    (acc : Option (Nat × DetectContentData)) :
    m.foldl
      (fun acc sm =>
        match sm with
        | SigMatch.contentSM i cd => some (i, cd)
        | SigMatch.otherSM _ _ => acc) acc = acc := by
  induction m generalizing acc with
  | nil => rfl
  | cons y u ihm =>
    have hy := hm y (by simp)
    cases y with
    | contentSM j cd => simp [isContentSM] at hy
    | otherSM j ty' =>
      simpa using ihm (fun sm hsm => hm sm (by simp [hsm])) acc

theorem lastContentSM_eq_none_of_no_content (l : List SigMatch)
    (h : ∀ sm ∈ l, isContentSM sm = false) : lastContentSM l = none :=
  lastContentSM_foldl_const l h none

/-- Registration call against the two global support registries: one
`SupportFastPatternForSigMatchList` call, one
`SupportFastPatternForSigMatchType` call, or one
`SupportFastPatternForSigMatchTypes` call. -/
inductive FpRegCall where
  | regList (list_id : Nat) : FpRegCall
  | regType (sm_type : Nat) : FpRegCall
  | regTypes : FpRegCall
deriving DecidableEq

/-- Effect of one registration call on the registry state. -/
def fpRegStep (st : FpSupport) : FpRegCall → FpSupport
  | FpRegCall.regList i =>
    { st with smlist_list := SupportFastPatternForSigMatchList st.smlist_list i }
  | FpRegCall.regType t =>
    { st with smtype_list := SupportFastPatternForSigMatchType st.smtype_list t }
  | FpRegCall.regTypes => SupportFastPatternForSigMatchTypes st

/-- Registry state after a sequence of registration calls, starting
from the initial state (both global list heads NULL). -/
def fpRegRun (calls : List FpRegCall) : FpSupport :=
  calls.foldl fpRegStep { smtype_list := [], smlist_list := [] }

/-- Content data used in the closed C2 instance: bytes `[4,5,6,7,8]`
with chop sub-range `[1, 1+3)` selected. -/
def c2cd : DetectContentData :=
  { emptyCd [4, 5, 6, 7, 8] false with
    fast_pattern := true
    fast_pattern_chop := true
    fp_chop_offset := 1
    fp_chop_len := 3 }

theorem sigLast_mkSig1 (cd : DetectContentData) :
    sigMatchGetLastSMFromLists (mkSig1 cd) = some (0, cd) := rfl

theorem stampSig_mkSig1 (cd cd' : DetectContentData) :
    stampSig (mkSig1 cd) 0 cd' = mkSig1 cd' := by
  simp [stampSig, stampList, mkSig1, emptySig]

theorem occursIn_correct (n b : List Nat) :
    occursIn n b = true ↔ n <:+: b := by
  induction b with
  | nil =>
    simp [occursIn, List.isEmpty_iff]
  | cons x t ih =>
    simp [occursIn, List.infix_cons_iff, List.isPrefixOf_iff_prefix, ih,
      Bool.or_eq_true]

/-- C9: for every signature whose seven supported sigmatch lists contain
no content-bearing keyword, `DetectFastPatternSetup` returns -1 and
leaves the signature unchanged (no flag or chop field is written). -/
theorem C9_setup_err_without_content (s : Sig) (arg : Option (List Char))
    (h : ∀ sm ∈ s.pmatch ++ s.umatch ++ s.hcbd ++ s.hhd ++ s.hrhd ++
        s.hmd ++ s.hcd, isContentSM sm = false) :
    DetectFastPatternSetup s arg = (-1, s) := by
  have h1 : lastContentSM s.pmatch = none :=
    lastContentSM_eq_none_of_no_content _ (fun sm hsm => h sm (by simp [hsm]))
  have h2 : lastContentSM s.umatch = none :=
    lastContentSM_eq_none_of_no_content _ (fun sm hsm => h sm (by simp [hsm]))
  have h3 : lastContentSM s.hcbd = none :=
    lastContentSM_eq_none_of_no_content _ (fun sm hsm => h sm (by simp [hsm]))
  have h4 : lastContentSM s.hhd = none :=
    lastContentSM_eq_none_of_no_content _ (fun sm hsm => h sm (by simp [hsm]))
  have h5 : lastContentSM s.hrhd = none :=
    lastContentSM_eq_none_of_no_content _ (fun sm hsm => h sm (by simp [hsm]))
  have h6 : lastContentSM s.hmd = none :=
    lastContentSM_eq_none_of_no_content _ (fun sm hsm => h sm (by simp [hsm]))
  have h7 : lastContentSM s.hcd = none :=
    lastContentSM_eq_none_of_no_content _ (fun sm hsm => h sm (by simp [hsm]))
  have hlast : sigMatchGetLastSMFromLists s = none := by
    simp [sigMatchGetLastSMFromLists, h1, h2, h3, h4, h5, h6, h7, pickLater]
  simp [DetectFastPatternSetup, hlast]

/-- Closed instance of C9: a signature holding only a non-content
keyword node in its payload list is rejected untouched. -/
theorem C9_setup_err_without_content_witness :
    DetectFastPatternSetup { emptySig with pmatch := [SigMatch.otherSM 0 99] }
        (some ['o', 'n', 'l', 'y']) =
      (-1, { emptySig with pmatch := [SigMatch.otherSM 0 99] }) :=
  C9_setup_err_without_content _ _ (by decide)

theorem support_list_nodup (l : List Nat) (id : Nat) (h : l.Nodup) :
    (SupportFastPatternForSigMatchList l id).Nodup := by
  unfold SupportFastPatternForSigMatchList
  split
  · exact h
  · exact List.nodup_cons.mpr ⟨by assumption, h⟩

theorem support_type_nodup (l : List Nat) (t : Nat) (h : l.Nodup) :
    (SupportFastPatternForSigMatchType l t).Nodup := by
  unfold SupportFastPatternForSigMatchType
  split
  · exact h
  · exact List.nodup_cons.mpr ⟨by assumption, h⟩

theorem fpRegStep_nodup (st : FpSupport) (c : FpRegCall)
    (h1 : st.smtype_list.Nodup) (h2 : st.smlist_list.Nodup) :
    (fpRegStep st c).smtype_list.Nodup ∧ (fpRegStep st c).smlist_list.Nodup := by
  cases c with
  | regList i => exact ⟨h1, support_list_nodup _ _ h2⟩
  | regType t => exact ⟨support_type_nodup _ _ h1, h2⟩
  | regTypes =>
    simp only [fpRegStep, SupportFastPatternForSigMatchTypes]
    exact ⟨support_type_nodup _ _ (support_type_nodup _ _
        (support_type_nodup _ _ (support_type_nodup _ _
          (support_type_nodup _ _ (support_type_nodup _ _
            (support_type_nodup _ _ h1)))))),
      support_list_nodup _ _ (support_list_nodup _ _
        (support_list_nodup _ _ (support_list_nodup _ _
          (support_list_nodup _ _ (support_list_nodup _ _
            (support_list_nodup _ _ h2))))))⟩

theorem fpRegRun_foldl_nodup (calls : List FpRegCall) (st : FpSupport)
    (h1 : st.smtype_list.Nodup) (h2 : st.smlist_list.Nodup) :
    (calls.foldl fpRegStep st).smtype_list.Nodup ∧
    (calls.foldl fpRegStep st).smlist_list.Nodup := by
  induction calls generalizing st with
  | nil => exact ⟨h1, h2⟩
  | cons c rest ih =>
    obtain ⟨k1, k2⟩ := fpRegStep_nodup st c h1 h2
    simpa using ih (fpRegStep st c) k1 k2

/-- C10: registration of fast-pattern support is idempotent and
duplicate-free: a `SupportFastPatternForSigMatchList` call with a list
id already present, or a `SupportFastPatternForSigMatchType` call with
a sigmatch type already present, leaves the list unchanged, and after
any sequence of registration calls from the initial state (including
repeated `SupportFastPatternForSigMatchTypes` calls) each list id and
each sigmatch type occurs at most once in its registry. -/
theorem C10_support_registration_duplicate_free :
    (∀ (l : List Nat) (list_id : Nat), list_id ∈ l →
        SupportFastPatternForSigMatchList l list_id = l) ∧
    (∀ (l : List Nat) (sm_type : Nat), sm_type ∈ l →
        SupportFastPatternForSigMatchType l sm_type = l) ∧
    (∀ calls : List FpRegCall,
        (fpRegRun calls).smtype_list.Nodup ∧
        (fpRegRun calls).smlist_list.Nodup) := by
  refine ⟨?_, ?_, ?_⟩
  · intro l id h
    simp [SupportFastPatternForSigMatchList, h]
  · intro l t h
    simp [SupportFastPatternForSigMatchType, h]
  · intro calls
    exact fpRegRun_foldl_nodup calls _ List.nodup_nil List.nodup_nil

/-- Closed instance of C10: re-registering a present id is a no-op, and
running the full type registration twice leaves both registries
duplicate-free. -/
theorem C10_support_registration_duplicate_free_witness :
    SupportFastPatternForSigMatchList [5, 2] 5 = [5, 2] ∧
    SupportFastPatternForSigMatchType [3] 3 = [3] ∧
    ((fpRegRun [FpRegCall.regTypes, FpRegCall.regTypes]).smtype_list.Nodup ∧
      (fpRegRun [FpRegCall.regTypes, FpRegCall.regTypes]).smlist_list.Nodup) :=
  ⟨C10_support_registration_duplicate_free.1 [5, 2] 5 (by decide),
   C10_support_registration_duplicate_free.2.1 [3] 3 (by decide),
   C10_support_registration_duplicate_free.2.2
     [FpRegCall.regTypes, FpRegCall.regTypes]⟩

/-- C2: for every signature whose selected fast pattern is non-negated,
MPM Search on the context containing it reports the signature id when
the selected byte range (chop sub-range when chopped, full bytes
otherwise) literally occurs in the buffer, and does not report the id
when the buffer does not contain those bytes. -/
theorem C2_mpm_search_sound_and_complete
    (sigs : List (Nat × DetectContentData)) (sid : Nat)
    (cd : DetectContentData) (buf : List Nat)
    (hmem : (sid, cd) ∈ sigs)
    (_hneg : cd.negated = false)
    (huniq : ∀ p ∈ sigs, p.1 = sid → p.2 = cd) :
    (fpNeedle cd <:+: buf → sid ∈ mpmSearch (mpmBuild sigs) buf) ∧
    (¬ fpNeedle cd <:+: buf → sid ∉ mpmSearch (mpmBuild sigs) buf) := by
  constructor
  · intro hocc
    have hb : (sid, fpNeedle cd) ∈ mpmBuild sigs := by
      simp only [mpmBuild, List.mem_map]
      exact ⟨(sid, cd), hmem, rfl⟩
    simp only [mpmSearch, List.mem_map, List.mem_filter]
    exact ⟨(sid, fpNeedle cd), ⟨hb, (occursIn_correct _ _).mpr hocc⟩, rfl⟩
  · intro hocc hin
    simp only [mpmSearch, List.mem_map, List.mem_filter] at hin
    obtain ⟨p, ⟨hpb, hpo⟩, hps⟩ := hin
    simp only [mpmBuild, List.mem_map] at hpb
    obtain ⟨q, hq, rfl⟩ := hpb
    have hq2 : q.2 = cd := huniq q hq hps
    rw [hq2] at hpo
    exact hocc ((occursIn_correct _ _).mp hpo)

/-- Closed instance of C2: a single-signature context whose selected
pattern is the chop sub-range `[1, 1+3)` of bytes `[4, 5, 6, 7, 8]`;
the id is reported on a buffer containing `[5, 6, 7]` and not reported
on a buffer missing it. -/
theorem C2_mpm_search_sound_and_complete_witness :
    1 ∈ mpmSearch (mpmBuild [(1, c2cd)]) [9, 5, 6, 7, 2] ∧
    1 ∉ mpmSearch (mpmBuild [(1, c2cd)]) [9, 5, 6, 2] :=
  ⟨(C2_mpm_search_sound_and_complete [(1, c2cd)] 1 c2cd [9, 5, 6, 7, 2]
      (by decide) (by decide) (by decide)).1 (by decide),
   (C2_mpm_search_sound_and_complete [(1, c2cd)] 1 c2cd [9, 5, 6, 2]
      (by decide) (by decide) (by decide)).2 (by decide)⟩

theorem digit_bounds {c : Char} (h : isDigitChar c = true) :
    48 ≤ c.toNat ∧ c.toNat ≤ 57 := by
  unfold isDigitChar at h
  rw [Bool.and_eq_true, Nat.ble_eq, Nat.ble_eq] at h
  exact h

theorem digit_not_ws {c : Char} (h : isDigitChar c = true) :
    isWsChar c = false := by
  obtain ⟨h1, h2⟩ := digit_bounds h
  unfold isWsChar
  simp only [Bool.or_eq_false_iff, beq_eq_false_iff_ne, ne_eq]
  omega

theorem digit_not_comma : isDigitChar ',' = false := by decide

theorem comma_not_ws : isWsChar ',' = false := by decide

theorem takeWhile_digits_append (ds r : List Char)
    (hd : ∀ c ∈ ds, isDigitChar c = true) :
    (ds ++ ',' :: r).takeWhile isDigitChar = ds := by
  induction ds with
  | nil => simp [List.takeWhile_cons, digit_not_comma]
  | cons c cs ih =>
    have hc := hd c (by simp)
    simp [List.takeWhile_cons, hc, ih (fun x hx => hd x (by simp [hx]))]

theorem dropWhile_digits_append (ds r : List Char)
    (hd : ∀ c ∈ ds, isDigitChar c = true) :
    (ds ++ ',' :: r).dropWhile isDigitChar = ',' :: r := by
  induction ds with
  | nil => simp [List.dropWhile_cons, digit_not_comma]
  | cons c cs ih =>
    have hc := hd c (by simp)
    simp [List.dropWhile_cons, hc, ih (fun x hx => hd x (by simp [hx]))]

theorem dropWhile_ws_digit_head (ds : List Char) (h1 : ds ≠ [])
    (hd : ∀ c ∈ ds, isDigitChar c = true) :
    ds.dropWhile isWsChar = ds := by
  cases ds with
  | nil => exact absurd rfl h1
  | cons c cs =>
    have hc := hd c (by simp)
    simp [List.dropWhile_cons, digit_not_ws hc]

theorem matchOnlyAlt_digit_head (ds r : List Char) (h1 : ds ≠ [])
    (hd : ∀ c ∈ ds, isDigitChar c = true) :
    matchOnlyAlt (ds ++ r) = false := by
  cases ds with
  | nil => exact absurd rfl h1
  | cons c cs =>
    have hc := hd c (by simp)
    have hne : ('o' == c) = false := by
      refine beq_eq_false_iff_ne.mpr ?_
      intro he
      have hb := (digit_bounds hc).2
      rw [← he] at hb
      have ho : ('o').toNat = 111 := by decide
      omega
    unfold matchOnlyAlt
    rw [List.cons_append, List.dropWhile_cons, digit_not_ws hc]
    simp [List.isPrefixOf, hne]

theorem chopAltSuffix_digits (ds1 ds2 : List Char)
    (h1 : ds1 ≠ []) (hd1 : ∀ c ∈ ds1, isDigitChar c = true)
    (h2 : ds2 ≠ []) (hd2 : ∀ c ∈ ds2, isDigitChar c = true) :
    chopAltSuffix (ds1 ++ ',' :: ds2) = some (ds1, ds2) := by
  have hds2take : ds2.takeWhile isDigitChar = ds2 :=
    List.takeWhile_eq_self_iff.mpr (by simpa using hd2)
  have hds2drop : ds2.dropWhile isDigitChar = [] :=
    List.dropWhile_eq_nil_iff.mpr (by simpa using hd2)
  have hws : (ds1 ++ ',' :: ds2).dropWhile isWsChar = ds1 ++ ',' :: ds2 := by
    cases ds1 with
    | nil => exact absurd rfl h1
    | cons c cs =>
      have hc := hd1 c (by simp)
      simp [List.dropWhile_cons, digit_not_ws hc]
  simp only [chopAltSuffix, hws, takeWhile_digits_append ds1 ds2 hd1,
    dropWhile_digits_append ds1 ds2 hd1, if_neg h1, List.dropWhile_cons,
    comma_not_ws, Bool.false_eq_true, if_false,
    dropWhile_ws_digit_head ds2 h2 hd2, hds2take, hds2drop, if_neg h2,
    List.dropWhile_nil, if_pos rfl]
  simp

theorem pcreExecFp_digits (ds1 ds2 : List Char)
    (h1 : ds1 ≠ []) (hd1 : ∀ c ∈ ds1, isDigitChar c = true)
    (h2 : ds2 ≠ []) (hd2 : ∀ c ∈ ds2, isDigitChar c = true) :
    pcreExecFp (ds1 ++ ',' :: ds2) = PcreRet.chop (atoiL ds1) (atoiL ds2) := by
  unfold pcreExecFp
  rw [matchOnlyAlt_digit_head ds1 (',' :: ds2) h1 hd1]
  simp only [Bool.false_eq_true, if_false]
  cases ds1 with
  | nil => exact absurd rfl h1
  | cons c cs =>
    rw [List.cons_append, chopAltSearch]
    rw [← List.cons_append, chopAltSuffix_digits (c :: cs) ds2 h1 hd1 h2 hd2]

theorem setup_mkSig1_chop (cd : DetectContentData) (hneg : cd.negated = false)
    (a : List Char) (ha : a ≠ []) (o l : Nat)
    (hp : pcreExecFp a = PcreRet.chop o l) :
    DetectFastPatternSetup (mkSig1 cd) (some a) =
      if 65535 < o then (-1, mkSig1 cd)
      else if 65535 < o + l then (-1, mkSig1 cd)
      else if cd.content_len < o + l then (-1, mkSig1 cd)
      else
        (0, mkSig1 { cd with fp_chop_offset := o
                             fp_chop_len := l
                             fast_pattern_chop := true
                             fast_pattern := true }) := by
  have hne : ¬ ((mkSig1 cd).pmatch = [] ∧ (mkSig1 cd).umatch = [] ∧
      (mkSig1 cd).hcbd = [] ∧ (mkSig1 cd).hhd = [] ∧ (mkSig1 cd).hrhd = [] ∧
      (mkSig1 cd).hmd = [] ∧ (mkSig1 cd).hcd = []) := by
    simp [mkSig1, emptySig]
  unfold DetectFastPatternSetup
  rw [if_neg hne, sigLast_mkSig1]
  simp only [hneg, Bool.false_and, Bool.false_eq_true, if_false]
  rw [if_neg ha, hp]
  by_cases hA : 65535 < o <;> by_cases hB : 65535 < o + l <;>
    by_cases hC : cd.content_len < o + l <;>
    simp [hA, hB, hC, stampSig_mkSig1]

/-- C4: a `fast_pattern:offset,length` directive fails the signature
load if and only if the chop offset exceeds 65535, or the chop length
exceeds 65535, or offset+length exceeds 65535, or offset+length exceeds
the targeted pattern's byte length; otherwise the load succeeds and the
stamped `FAST_PATTERN_CHOP` pattern satisfies
`offset + length <= min 65535 pattern_byte_length`. -/
theorem C4_chop_load_iff_bounds (bytes : List Nat) (ds1 ds2 : List Char)
    (h1 : ds1 ≠ []) (hd1 : ∀ c ∈ ds1, isDigitChar c = true)
    (h2 : ds2 ≠ []) (hd2 : ∀ c ∈ ds2, isDigitChar c = true) :
    (DetectFastPatternSetup (mkSig1 (emptyCd bytes false))
        (some (ds1 ++ ',' :: ds2)) = (-1, mkSig1 (emptyCd bytes false)) ↔
      (65535 < atoiL ds1 ∨ 65535 < atoiL ds2 ∨
        65535 < atoiL ds1 + atoiL ds2 ∨
        bytes.length < atoiL ds1 + atoiL ds2)) ∧
    (¬ (65535 < atoiL ds1 ∨ 65535 < atoiL ds2 ∨
        65535 < atoiL ds1 + atoiL ds2 ∨
        bytes.length < atoiL ds1 + atoiL ds2) →
      DetectFastPatternSetup (mkSig1 (emptyCd bytes false))
          (some (ds1 ++ ',' :: ds2)) =
        (0, mkSig1 { emptyCd bytes false with
                     fp_chop_offset := atoiL ds1
                     fp_chop_len := atoiL ds2
                     fast_pattern_chop := true
                     fast_pattern := true }) ∧
      atoiL ds1 + atoiL ds2 ≤ min 65535 bytes.length) := by
  have ha : ds1 ++ ',' :: ds2 ≠ [] := by simp
  have hred := setup_mkSig1_chop (emptyCd bytes false) rfl (ds1 ++ ',' :: ds2)
    ha (atoiL ds1) (atoiL ds2) (pcreExecFp_digits ds1 ds2 h1 hd1 h2 hd2)
  have hlen : (emptyCd bytes false).content_len = bytes.length := rfl
  rw [hlen] at hred
  constructor
  · rw [hred]
    constructor
    · intro he
      by_cases hA : 65535 < atoiL ds1
      · exact Or.inl hA
      by_cases hB : 65535 < atoiL ds1 + atoiL ds2
      · exact Or.inr (Or.inr (Or.inl hB))
      by_cases hC : bytes.length < atoiL ds1 + atoiL ds2
      · exact Or.inr (Or.inr (Or.inr hC))
      rw [if_neg hA, if_neg hB, if_neg hC] at he
      exact absurd (congrArg Prod.fst he) (by simp)
    · intro hor
      split_ifs with hA hB hC
      · rfl
      · rfl
      · rfl
      · omega
  · intro hnor
    rw [hred, if_neg (by omega), if_neg (by omega), if_neg (by omega)]
    exact ⟨rfl, by omega⟩

/-- Closed instance of C4: `fast_pattern:3,4` on a 9-byte pattern loads
with chop (3,4); the same directive on a 3-byte pattern is rejected. -/
theorem C4_chop_load_iff_bounds_witness :
    DetectFastPatternSetup
        (mkSig1 (emptyCd [1, 2, 3, 4, 5, 6, 7, 8, 9] false))
        (some ['3', ',', '4']) =
      (0, mkSig1 { emptyCd [1, 2, 3, 4, 5, 6, 7, 8, 9] false with
                   fp_chop_offset := 3
                   fp_chop_len := 4
                   fast_pattern_chop := true
                   fast_pattern := true }) ∧
    DetectFastPatternSetup (mkSig1 (emptyCd [1, 2, 3] false))
        (some ['3', ',', '4']) =
      (-1, mkSig1 (emptyCd [1, 2, 3] false)) :=
  ⟨((C4_chop_load_iff_bounds [1, 2, 3, 4, 5, 6, 7, 8, 9] ['3'] ['4']
      (by decide) (by decide) (by decide) (by decide)).2 (by decide)).1,
   (C4_chop_load_iff_bounds [1, 2, 3] ['3'] ['4']
      (by decide) (by decide) (by decide) (by decide)).1.mpr (by decide)⟩

theorem pcre_only_eq : pcreExecFp ['o', 'n', 'l', 'y'] = PcreRet.only := by
  decide

theorem pcre_chop34_eq :
    pcreExecFp ['3', ',', '4'] = PcreRet.chop 3 4 := by decide

theorem mkSig1_not_all_empty (cd : DetectContentData) :
    ¬ ((mkSig1 cd).pmatch = [] ∧ (mkSig1 cd).umatch = [] ∧
      (mkSig1 cd).hcbd = [] ∧ (mkSig1 cd).hhd = [] ∧ (mkSig1 cd).hrhd = [] ∧
      (mkSig1 cd).hmd = [] ∧ (mkSig1 cd).hcd = []) := by
  simp [mkSig1, emptySig]

/-- C3 counterexample: `fast_pattern:only` targeting a negated content
keyword that carries no relative modifier is rejected by
`DetectFastPatternSetup` (return -1, signature untouched), where the
claim says the signature loads with `FAST_PATTERN_ONLY` set; the
source's `ret == 2` branch refuses `DETECT_CONTENT_NEGATED` outright
and its own unit test DetectFastPatternTest27 expects the load to
fail. -/
theorem C3_only_negated_accepted_counterexample :
    DetectFastPatternSetup (mkSig1 (emptyCd [111, 110, 101] true))
        (some ['o', 'n', 'l', 'y']) =
      (-1, mkSig1 (emptyCd [111, 110, 101] true)) := by decide

/-- C3 amended: `fast_pattern:only` on a negated content keyword is
rejected even without any relative modifier (negation alone is only
tolerated by the bare `fast_pattern` form, which loads and stamps
`FAST_PATTERN`). -/
theorem C3_only_negated_rejected (bytes : List Nat) :
    DetectFastPatternSetup (mkSig1 (emptyCd bytes true))
        (some ['o', 'n', 'l', 'y']) =
      (-1, mkSig1 (emptyCd bytes true)) ∧
    DetectFastPatternSetup (mkSig1 (emptyCd bytes true)) none =
      (0, mkSig1 { emptyCd bytes true with fast_pattern := true }) := by
  constructor
  · unfold DetectFastPatternSetup
    rw [if_neg (mkSig1_not_all_empty _), sigLast_mkSig1]
    simp [emptyCd, pcre_only_eq]
  · unfold DetectFastPatternSetup
    rw [if_neg (mkSig1_not_all_empty _), sigLast_mkSig1]
    simp [emptyCd, stampSig_mkSig1]

/-- C8 counterexample: the argument string `onlyzz` is none of the
three documented forms (empty, `only`, `offset,length`), yet
`DetectFastPatternSetup` accepts it and stamps
`FAST_PATTERN | FAST_PATTERN_ONLY`: the first regex alternative
`^(\s*only\s*)` has no end anchor, so any text after `only` is
ignored. -/
theorem C8_malformed_arg_accepted_counterexample :
    DetectFastPatternSetup (mkSig1 (emptyCd [47, 111, 110, 101, 47] false))
        (some ['o', 'n', 'l', 'y', 'z', 'z']) =
      (0, mkSig1 { emptyCd [47, 111, 110, 101, 47] false with
                   fast_pattern := true
                   fast_pattern_only := true }) := by decide

/-- C8 amended: because the `only` alternative of
`DETECT_FAST_PATTERN_REGEX` is anchored only at the start and the
numeric alternative only at the end, the accepted argument strings are:
absent/empty (bare form), any string whose leading whitespace is
followed by `only` (trailing text ignored), and any string with a
suffix of the shape `ws* digits+ ws* , ws* digits+ ws*` reaching the
end (leading text ignored); every argument the regex does not match
makes `DetectFastPatternSetup` return -1 with the signature left
untouched, and it never faults. -/
theorem C8_arg_grammar_sloppy_anchors :
    (∀ (bytes : List Nat) (a : List Char), a ≠ [] →
        pcreExecFp a = PcreRet.nomatch →
        DetectFastPatternSetup (mkSig1 (emptyCd bytes false)) (some a) =
          (-1, mkSig1 (emptyCd bytes false))) ∧
    (DetectFastPatternSetup (mkSig1 (emptyCd [1] false))
        (some ['o', 'n', 'l', 'y', 'z', 'z'])).1 = 0 ∧
    (DetectFastPatternSetup (mkSig1 (emptyCd [1, 2, 3] false))
        (some ['z', 'z', '1', ',', '2'])).1 = 0 := by
  refine ⟨?_, by decide, by decide⟩
  intro bytes a ha hp
  unfold DetectFastPatternSetup
  rw [if_neg (mkSig1_not_all_empty _), sigLast_mkSig1]
  simp [emptyCd, ha, hp]

/-- Closed instance of the amended C8: the argument `@` matches neither
regex alternative and is rejected with the signature unchanged. -/
theorem C8_arg_grammar_sloppy_anchors_witness :
    DetectFastPatternSetup (mkSig1 (emptyCd [1] false)) (some ['@']) =
      (-1, mkSig1 (emptyCd [1] false)) :=
  C8_arg_grammar_sloppy_anchors.1 [1] ['@'] (by decide) (by decide)

/-- C1 counterexample: in the rule
`content:.. ; fast_pattern; content:..; fast_pattern;` each bare
directive stamps `FAST_PATTERN` on its own content keyword, so after
the selector-side setup runs the payload context holds two keywords
carrying `FAST_PATTERN`, not at most one; the source's own unit test
DetectFastPatternTest02 expects both to be flagged. -/
theorem C1_exactly_one_flagged_counterexample :
    ¬ (((sigInit [RuleOpt.contentOpt [1] false, RuleOpt.fastPatternOpt none,
          RuleOpt.contentOpt [2] false, RuleOpt.fastPatternOpt none]).map
        (fun s => fpFlaggedCount s.pmatch)).getD 0 ≤ 1) := by decide

/-- C1 amended: `DetectFastPatternSetup` stamps `FAST_PATTERN` on every
content keyword a bare `fast_pattern` directive targets and enforces no
per-context exclusivity: for a signature with two content keywords each
followed by its own bare directive, both end up flagged `FAST_PATTERN`
(exclusive selection is deferred to the MPM build stage). -/
theorem C1_each_directive_flags_its_target (b1 b2 : List Nat) :
    sigInit [RuleOpt.contentOpt b1 false, RuleOpt.fastPatternOpt none,
        RuleOpt.contentOpt b2 false, RuleOpt.fastPatternOpt none] =
      some { emptySig with
             pmatch := [SigMatch.contentSM 0
                 { emptyCd b1 false with fast_pattern := true },
               SigMatch.contentSM 1
                 { emptyCd b2 false with fast_pattern := true }] } := by
  simp [sigInit, sigInitAux, DetectFastPatternSetup, sigMatchGetLastSMFromLists,
    lastContentSM, pickLater, stampSig, stampList, emptySig, emptyCd]

/-- C5: a signature combining `fast_pattern:only` with a `distance`,
`within`, `offset` or `depth` modifier on the targeted content keyword
fails to load whether the modifier appears after or before the
directive, so the loaded signature is absent. -/
theorem C5_only_with_relative_modifier_rejected (b1 b2 : List Nat)
    (k : RelModKind) :
    sigInit [RuleOpt.contentOpt b1 false, RuleOpt.contentOpt b2 false,
        RuleOpt.fastPatternOpt (some ['o', 'n', 'l', 'y']),
        RuleOpt.relModOpt k] = none ∧
    sigInit [RuleOpt.contentOpt b1 false, RuleOpt.contentOpt b2 false,
        RuleOpt.relModOpt k,
        RuleOpt.fastPatternOpt (some ['o', 'n', 'l', 'y'])] = none := by
  cases k <;>
    simp [sigInit, sigInitAux, DetectFastPatternSetup,
      sigMatchGetLastSMFromLists, lastContentSM, pickLater, stampSig,
      stampList, emptySig, emptyCd, relModSetup, relModFlagSet, pcre_only_eq]

/-- C6: in the rule
`content:b1; content:b2; fast_pattern:3,4; content:b3;` the explicit
directive binds to the most recently declared content keyword before
it — the middle one (reachable as the prior node of the list tail),
which alone is flagged `FAST_PATTERN | FAST_PATTERN_CHOP` with chop
offset 3 and chop length 4; the first and last keywords stay clean. -/
theorem C6_directive_binds_middle_keyword (b1 b2 b3 : List Nat)
    (h : 7 ≤ b2.length) :
    sigInit [RuleOpt.contentOpt b1 false, RuleOpt.contentOpt b2 false,
        RuleOpt.fastPatternOpt (some ['3', ',', '4']),
        RuleOpt.contentOpt b3 false] =
      some { emptySig with
             pmatch := [SigMatch.contentSM 0 (emptyCd b1 false),
               SigMatch.contentSM 1
                 { emptyCd b2 false with fast_pattern := true
                                         fast_pattern_chop := true
                                         fp_chop_offset := 3
                                         fp_chop_len := 4 },
               SigMatch.contentSM 2 (emptyCd b3 false)] } := by
  have hlen : ¬ (b2.length < 3 + 4) := by omega
  simp [sigInit, sigInitAux, DetectFastPatternSetup, sigMatchGetLastSMFromLists,
    lastContentSM, pickLater, stampSig, stampList, emptySig, emptyCd,
    pcre_chop34_eq, hlen]

/-- Closed instance of C6 at the literal patterns of
DetectFastPatternTest37 (`oneoneone`, `oneonetwo`, `three` as byte
lists): the middle keyword is the one stamped with chop (3,4). -/
theorem C6_directive_binds_middle_keyword_witness :
    sigInit [RuleOpt.contentOpt [111, 110, 101, 111, 110, 101, 111, 110, 101] false,
        RuleOpt.contentOpt [111, 110, 101, 111, 110, 101, 116, 119, 111] false,
        RuleOpt.fastPatternOpt (some ['3', ',', '4']),
        RuleOpt.contentOpt [116, 104, 114, 101, 101] false] =
      some { emptySig with
             pmatch := [SigMatch.contentSM 0
                 (emptyCd [111, 110, 101, 111, 110, 101, 111, 110, 101] false),
               SigMatch.contentSM 1
                 { emptyCd [111, 110, 101, 111, 110, 101, 116, 119, 111] false with
                   fast_pattern := true
                   fast_pattern_chop := true
                   fp_chop_offset := 3
                   fp_chop_len := 4 },
               SigMatch.contentSM 2
                 (emptyCd [116, 104, 114, 101, 101] false)] } :=
  C6_directive_binds_middle_keyword _ _ _ (by decide)

/-- C7: a negated content keyword without relative modifiers may be the
target of `fast_pattern:3,4` — the signature loads and the keyword
carries NEGATED, `FAST_PATTERN` and `FAST_PATTERN_CHOP` with the chop
offset and length recorded — but when a `distance`, `within`, `offset`
or `depth` modifier co-occurs on that same negated keyword (declared
after or before the directive) the signature is rejected. -/
theorem C7_negated_chop_compatibility (b1 b2 b3 : List Nat)
    (h : 7 ≤ b2.length) :
    (sigInit [RuleOpt.contentOpt b1 false, RuleOpt.contentOpt b2 true,
        RuleOpt.fastPatternOpt (some ['3', ',', '4']),
        RuleOpt.contentOpt b3 false] =
      some { emptySig with
             pmatch := [SigMatch.contentSM 0 (emptyCd b1 false),
               SigMatch.contentSM 1
                 { emptyCd b2 true with fast_pattern := true
                                        fast_pattern_chop := true
                                        fp_chop_offset := 3
                                        fp_chop_len := 4 },
               SigMatch.contentSM 2 (emptyCd b3 false)] }) ∧
    (∀ k : RelModKind,
      sigInit [RuleOpt.contentOpt b1 false, RuleOpt.contentOpt b2 true,
          RuleOpt.fastPatternOpt (some ['3', ',', '4']),
          RuleOpt.relModOpt k, RuleOpt.contentOpt b3 false] = none) ∧
    (∀ k : RelModKind,
      sigInit [RuleOpt.contentOpt b1 false, RuleOpt.contentOpt b2 true,
          RuleOpt.relModOpt k,
          RuleOpt.fastPatternOpt (some ['3', ',', '4']),
          RuleOpt.contentOpt b3 false] = none) := by
  have hlen : ¬ (b2.length < 3 + 4) := by omega
  refine ⟨?_, ?_, ?_⟩
  · simp [sigInit, sigInitAux, DetectFastPatternSetup,
      sigMatchGetLastSMFromLists, lastContentSM, pickLater, stampSig,
      stampList, emptySig, emptyCd, pcre_chop34_eq, hlen]
  · intro k
    cases k <;>
      simp [sigInit, sigInitAux, DetectFastPatternSetup,
        sigMatchGetLastSMFromLists, lastContentSM, pickLater, stampSig,
        stampList, emptySig, emptyCd, relModSetup, relModFlagSet,
        pcre_chop34_eq, hlen]
  · intro k
    cases k <;>
      simp [sigInit, sigInitAux, DetectFastPatternSetup,
        sigMatchGetLastSMFromLists, lastContentSM, pickLater, stampSig,
        stampList, emptySig, emptyCd, relModSetup, relModFlagSet,
        pcre_chop34_eq, hlen]

/-- Closed instance of C7 at the literal patterns of
DetectFastPatternTest49/50 (`one`, `!twooneone`, `three`): the negated
keyword loads with chop (3,4), and adding `distance` after the
directive rejects the signature. -/
theorem C7_negated_chop_compatibility_witness :
    (sigInit [RuleOpt.contentOpt [111, 110, 101] false,
        RuleOpt.contentOpt [116, 119, 111, 111, 110, 101, 111, 110, 101] true,
        RuleOpt.fastPatternOpt (some ['3', ',', '4']),
        RuleOpt.contentOpt [116, 104, 114, 101, 101] false] =
      some { emptySig with
             pmatch := [SigMatch.contentSM 0 (emptyCd [111, 110, 101] false),
               SigMatch.contentSM 1
                 { emptyCd [116, 119, 111, 111, 110, 101, 111, 110, 101] true with
                   fast_pattern := true
                   fast_pattern_chop := true
                   fp_chop_offset := 3
                   fp_chop_len := 4 },
               SigMatch.contentSM 2
                 (emptyCd [116, 104, 114, 101, 101] false)] }) ∧
    sigInit [RuleOpt.contentOpt [111, 110, 101] false,
        RuleOpt.contentOpt [116, 119, 111, 111, 110, 101, 111, 110, 101] true,
        RuleOpt.fastPatternOpt (some ['3', ',', '4']),
        RuleOpt.relModOpt RelModKind.distance,
        RuleOpt.contentOpt [116, 104, 114, 101, 101] false] = none :=
  ⟨(C7_negated_chop_compatibility _ _ _ (by decide)).1,
   (C7_negated_chop_compatibility _ _ _ (by decide)).2.1 RelModKind.distance⟩
